import Mathlib

/-!
Verification of the liquid-ml distributed overlay against its specification.

The development shallowly embeds the Rust sources:
* `src/network/client.rs` — the `Client` node (startup, accept loop, connect, send),
* `src/network/server.rs` — the coordinator `Server` (registration, directory, broadcast),
* `src/dataframe.rs` and `examples/manual_demo_client.rs` — the data-frame `get` and the
  three-node sum-check demo,
* `src/error.rs` — the `DFError` `Display` implementation.

Stateful Rust code becomes explicit state passing; `HashMap` becomes an association
list with replace-or-append insertion (the same observable lookup/len semantics);
fallible code returns `Except`; a panic (`unwrap` on `None`) is modelled by a
dedicated error value.  Modules referenced by the sources but absent from the tree
(`error::LiquidError`, `network::message`, `kv`) are modelled from the spec and are
marked as such in their doc comments.
-/

set_option autoImplicit false

/-- Association-list lookup, modelling `HashMap::get`. -/
def lookupA {κ α : Type} [DecidableEq κ] : List (κ × α) → κ → Option α
  | [], _ => none
  | (k, v) :: rest, key => if k = key then some v else lookupA rest key

/-- Association-list insertion, modelling `HashMap::insert`: the value under an
existing key is replaced, a fresh key is appended.  The value previously stored
(what Rust returns from `insert`) is recoverable as `lookupA` before the call. -/
def insertA {κ α : Type} [DecidableEq κ] : List (κ × α) → κ → α → List (κ × α)
  | [], key, v => [(key, v)]
  | (k, w) :: rest, key, v =>
    if k = key then (key, v) :: rest else (k, w) :: insertA rest key v

theorem lookupA_insertA_self {κ α : Type} [DecidableEq κ]
    (l : List (κ × α)) (k : κ) (v : α) : lookupA (insertA l k v) k = some v := by
  induction l with
  | nil => simp [insertA, lookupA]
  | cons hd tl ih =>
    by_cases h : hd.1 = k
    · simp [insertA, lookupA, h]
    · simpa [insertA, lookupA, h] using ih

theorem lookupA_eq_none_of_not_mem {κ α : Type} [DecidableEq κ]
    (l : List (κ × α)) (k : κ) (h : k ∉ l.map Prod.fst) : lookupA l k = none := by
  induction l with
  | nil => rfl
  | cons hd tl ih =>
    simp only [List.map_cons, List.mem_cons] at h
    push_neg at h
    have h1 : hd.1 ≠ k := fun hk => h.1 hk.symm
    simp [lookupA, h1, ih h.2]

theorem mem_fst_of_lookupA_some {κ α : Type} [DecidableEq κ]
    (l : List (κ × α)) (k : κ) (c : α) (h : lookupA l k = some c) :
    k ∈ l.map Prod.fst := by
  induction l with
  | nil => simp [lookupA] at h
  | cons hd tl ih =>
    by_cases hk : hd.1 = k
    · simp [hk]
    · simp only [lookupA, hk, if_false] at h
      simp [ih h]

theorem lookupA_isSome_of_mem {κ α : Type} [DecidableEq κ]
    (l : List (κ × α)) (k : κ) (h : k ∈ l.map Prod.fst) :
    ∃ c, lookupA l k = some c := by
  induction l with
  | nil => simp at h
  | cons hd tl ih =>
    by_cases hk : hd.1 = k
    · exact ⟨hd.2, by simp [lookupA, hk]⟩
    · simp only [List.map_cons, List.mem_cons] at h
      rcases h with h | h
      · exact absurd h.symm hk
      · simpa [lookupA, hk] using ih h

theorem insertA_append_of_not_mem {κ α : Type} [DecidableEq κ]
    (l : List (κ × α)) (k : κ) (v : α) (h : k ∉ l.map Prod.fst) :
    insertA l k v = l ++ [(k, v)] := by
  induction l with
  | nil => rfl
  | cons hd tl ih =>
    simp only [List.map_cons, List.mem_cons] at h
    push_neg at h
    have h1 : hd.1 ≠ k := fun hk => h.1 hk.symm
    simp [insertA, h1, ih h.2]

theorem insertA_map_fst_of_mem {κ α : Type} [DecidableEq κ]
    (l : List (κ × α)) (k : κ) (v : α) (h : k ∈ l.map Prod.fst) :
    (insertA l k v).map Prod.fst = l.map Prod.fst := by
  induction l with
  | nil => simp at h
  | cons hd tl ih =>
    by_cases hk : hd.1 = k
    · simp [insertA, hk]
    · simp only [List.map_cons, List.mem_cons] at h
      rcases h with h | h
      · exact absurd h.symm hk
      · simp [insertA, hk, ih h]

/-- Modelled from the spec: `error::LiquidError` is referenced by the sources but
`src/error.rs` only defines `DFError`; §7 of the spec lists the error kinds.
`Panicked` additionally models a Rust panic (`.unwrap()` on `None`). -/
inductive LiquidErr where
  | UnknownId
  | UnexpectedMessage
  | ReconnectionError
  | IoFailure
  | KeyAlreadyPresent
  | NotPresent
  | Panicked
deriving DecidableEq, Repr

/-! ## Client node (`src/network/client.rs`) -/

/-- Modelled from the spec: a serialized frame written to a peer link
(`network::message` is not under `src/`).  `connectionMsg` carries the fields of
`ConnectionMsg`; `text` covers the other serializable payloads the client sends. -/
inductive Frame where
  | connectionMsg (my_id : Nat) (msg_id : Nat) (my_address : String)
  | text (s : String)
deriving DecidableEq, Repr

/-- A peer link as stored in `Client.directory`: `Connection { address, write_stream }`.
The write half is abstracted to the socket handle `link` plus the list of frames
written to it. -/
structure Conn where
  address : String
  link : Nat
  written : List Frame
deriving DecidableEq, Repr

/-- The state of `Client` (src/network/client.rs, lines 14-30): its assigned `id`,
listening `address`, message counter `msg_id` and peer `directory`. -/
structure ClientState where
  id : Nat
  address : String
  msg_id : Nat
  directory : List (Nat × Conn)
deriving DecidableEq, Repr

/-- The fields of `ConnectionMsg` as read in `accept_new_connections`. -/
structure ConnectionMsg where
  my_id : Nat
  msg_id : Nat
  my_address : String
deriving DecidableEq, Repr

/-- `Client::increment_msg_id` (client.rs lines 195-197), verbatim: the source
assigns to `self.id`, not to `self.msg_id`. -/
def incrementMsgId (c : ClientState) (i : Nat) : ClientState :=
  { c with id := max c.id i + 1 }

/-- One iteration of `Client::accept_new_connections` (client.rs lines 86-113):
read a `ConnectionMsg`, insert the new connection into the directory; if an entry
was already present return `ReconnectionError`, otherwise spawn the reader task
(no state effect) and call `increment_msg_id`. -/
def clientAcceptOne (c : ClientState) (m : ConnectionMsg) (link : Nat) :
    ClientState × Except LiquidErr Unit :=
  let conn : Conn := ⟨m.my_address, link, []⟩
  let old := lookupA c.directory m.my_id
  let c1 := { c with directory := insertA c.directory m.my_id conn }
  match old with
  | some _ => (c1, .error .ReconnectionError)
  | none => (incrementMsgId c1 m.msg_id, .ok ())

/-- The `Client::accept_new_connections` loop over the finite stream of inbound
connections; `none` stands for a first read that fails to decode a
`ConnectionMsg` (the `?` propagates the read error out of the loop). -/
def clientAcceptLoop (c : ClientState) :
    List (Option ConnectionMsg × Nat) → ClientState × Except LiquidErr Unit
  | [] => (c, .ok ())
  | (none, _) :: _ => (c, .error .IoFailure)
  | (some m, link) :: rest =>
    match clientAcceptOne c m link with
    | (c', .ok _) => clientAcceptLoop c' rest
    | (c', .error e) => (c', .error e)

/-- `Client::send_msg` (client.rs lines 162-175): look the target up in the
directory, `UnknownId` if absent; otherwise write the frame (the oracle `netOk`
injects transport failures of `network::send_msg`) and only then increment
`msg_id`. -/
def sendMsgC (c : ClientState) (target : Nat) (f : Frame) (netOk : Bool) :
    ClientState × Except LiquidErr Unit :=
  match lookupA c.directory target with
  | none => (c, .error .UnknownId)
  | some conn =>
    if netOk then
      ({ c with
          directory := insertA c.directory target
            ⟨conn.address, conn.link, conn.written ++ [f]⟩
          msg_id := c.msg_id + 1 }, .ok ())
    else (c, .error .IoFailure)

/-- `Client::connect` (client.rs lines 120-159): dial the peer, insert the
connection; on a duplicate return `ReconnectionError`, otherwise send our
`ConnectionMsg` followed by the `"Hi"` greeting through `send_msg`. -/
def clientConnect (c : ClientState) (peer : Nat × String) (link : Nat) :
    ClientState × Except LiquidErr Unit :=
  let conn : Conn := ⟨peer.2, link, []⟩
  let old := lookupA c.directory peer.1
  let c1 := { c with directory := insertA c.directory peer.1 conn }
  match old with
  | some _ => (c1, .error .ReconnectionError)
  | none =>
    match sendMsgC c1 peer.1 (.connectionMsg c1.id c1.msg_id c1.address) true with
    | (c2, .ok _) =>
      match sendMsgC c2 peer.1 (.text "Hi") true with
      | (c3, .ok _) => (c3, .ok ())
      | (c3, .error e) => (c3, .error e)
    | (c2, .error e) => (c2, .error e)

/-! ### Startup order of `Client::new` (client.rs lines 48-79) -/

/-- The externally visible steps of `Client::new`. -/
inductive StartupStep where
  | connectCoordinator
  | sendIntroduction
  | readRegistration
  | bindListener
  | dialPeer (id : Nat) (addr : String)
deriving DecidableEq, Repr

/-- The steps of `Client::new` in source order (client.rs lines 48-79):
`TcpStream::connect(server_addr)` (line 53), `network::send_msg(&my_addr, ..)`
(line 58), `network::read_msg::<RegistrationMsg>` (line 61),
`TcpListener::bind(my_addr)` during construction of the struct (line 70), then
`c.connect(a)` for each registered peer (lines 74-76). -/
def clientNewSteps (peers : List (Nat × String)) : List StartupStep :=
  [.connectCoordinator, .sendIntroduction, .readRegistration, .bindListener]
    ++ peers.map (fun p => .dialPeer p.1 p.2)

/-- Annotate each step with whether the listener was already bound when the step
ran. -/
def markBound : Bool → List StartupStep → List (StartupStep × Bool)
  | _, [] => []
  | b, s :: rest =>
    (s, b) :: markBound (if s = .bindListener then true else b) rest

/-- The run of `Client::new`: its steps, each tagged with the listener state at
the time it executed. -/
def clientNewRun (peers : List (Nat × String)) : List (StartupStep × Bool) :=
  markBound false (clientNewSteps peers)

theorem markBound_true (l : List StartupStep) :
    markBound true l = l.map (fun s => (s, true)) := by
  induction l with
  | nil => rfl
  | cons hd tl ih => by_cases h : hd = .bindListener <;> simp [markBound, h, ih]

/-! ## Coordinator (`src/network/server.rs`) -/

/-- The `ControlMsg` kinds used by the server (spec §4.1; the defining module is
not under `src/`, the constructors and fields follow the spec table and the uses
in server.rs). -/
inductive ControlMsg where
  | Introduction (address : String) (network_name : String)
  | Directory (dir : List (Nat × String))
  | Kill
deriving DecidableEq, Repr

/-- `Message::new(msg_id, sender, target, msg)` as built in `Server::send_msg`
(server.rs line 108). -/
structure Message where
  msg_id : Nat
  sender : Nat
  target : Nat
  msg : ControlMsg
deriving DecidableEq, Repr

/-- A registered client connection held by the server: its announced address and
the frames written to its sink. -/
structure SConn where
  address : String
  sent : List Message
deriving DecidableEq, Repr

/-- The state of `Server` (server.rs lines 14-25): the message counter and the
two-level directory `network_name -> (node_id -> Connection)`. -/
structure ServerState where
  msg_id : Nat
  directory : List (String × List (Nat × SConn))
deriving DecidableEq, Repr

def emptyServer : ServerState := ⟨0, []⟩

/-- Modelled from the spec: `message::send_msg(target, m, subdir)` (the module is
not under `src/`) locates the sink registered under `target` and writes the
frame; the oracle `fails` injects transport failures, and a missing sink is a
failed lookup. -/
def sinkSend (subdir : List (Nat × SConn)) (target : Nat) (m : Message)
    (fails : Nat → Bool) : List (Nat × SConn) × Except LiquidErr Unit :=
  match lookupA subdir target with
  | none => (subdir, .error .UnknownId)
  | some conn =>
    if fails target then (subdir, .error .IoFailure)
    else (insertA subdir target ⟨conn.address, conn.sent ++ [m]⟩, .ok ())

/-- `Server::send_msg` (server.rs lines 102-117): build the `Message`, look the
sub-directory up (`.unwrap()` on a missing name panics), write to the sink, and
increment `msg_id` only after a successful send (the `?` on line 114 returns
first). -/
def serverSendMsg (s : ServerState) (target : Nat) (name : String)
    (m : ControlMsg) (fails : Nat → Bool) : ServerState × Except LiquidErr Unit :=
  match lookupA s.directory name with
  | none => (s, .error .Panicked)
  | some d =>
    match sinkSend d target ⟨s.msg_id, 0, target, m⟩ fails with
    | (d', .ok _) => (⟨s.msg_id + 1, insertA s.directory name d'⟩, .ok ())
    | (_, .error e) => (s, .error e)

/-- `Server::broadcast` loop (server.rs lines 137-139) over the snapshot of ids:
send to each id in turn; the `?` on line 138 returns the first failure
immediately.  The list of ids the loop actually reached is returned alongside. -/
def serverBroadcastGo (s : ServerState) (name : String) (m : ControlMsg)
    (fails : Nat → Bool) :
    List Nat → ServerState × List Nat × Except LiquidErr Unit
  | [] => (s, [], .ok ())
  | k :: rest =>
    match serverSendMsg s k name m fails with
    | (s', .ok _) =>
      let r := serverBroadcastGo s' name m fails rest
      (r.1, k :: r.2.1, r.2.2)
    | (s', .error e) => (s', [k], .error e)

/-- `Server::broadcast` (server.rs lines 123-141): snapshot the ids of the named
sub-directory (`.find(..).unwrap()` panics when the name is absent) and run the
send loop. -/
def serverBroadcast (s : ServerState) (m : ControlMsg) (name : String)
    (fails : Nat → Bool) : ServerState × List Nat × Except LiquidErr Unit :=
  match lookupA s.directory name with
  | none => (s, [], .error .Panicked)
  | some d => serverBroadcastGo s name m fails (d.map Prod.fst)

/-- The observable events of one registration, in the order the source performs
them. -/
inductive RegEvent where
  | readIntroduction
  | insertSink (id : Nat)
  | sendDirectory (target : Nat)
deriving DecidableEq, Repr

/-- What one registration produced: the assigned id, the `Directory` payload sent
to the newcomer, and the ordered event trace. -/
structure RegRecord where
  assigned : Nat
  payload : List (Nat × String)
  trace : List RegEvent
deriving DecidableEq, Repr

instance : Inhabited RegRecord := ⟨⟨0, [], []⟩⟩

/-- One registration in `Server::accept_new_connections` (server.rs lines
50-95): read the `Introduction`, look up or create the sub-directory, assign
`target_id = len + 1` (line 72) or `1` (line 77), snapshot the `Directory`
payload from the entries present before the insertion (line 73), insert the new
sink (lines 74/80-81), then send the `Directory` message (line 94, whose `?`
propagates a send failure). -/
def serverRegister (s : ServerState) (address : String) (name : String)
    (fails : Nat → Bool) : ServerState × RegRecord × Except LiquidErr Unit :=
  match lookupA s.directory name with
  | some d =>
    let target := d.length + 1
    let dir := d.map (fun kv => (kv.1, kv.2.address))
    let s1 : ServerState :=
      ⟨s.msg_id, insertA s.directory name (insertA d target ⟨address, []⟩)⟩
    let r := serverSendMsg s1 target name (.Directory dir) fails
    (r.1, ⟨target, dir, [.readIntroduction, .insertSink target, .sendDirectory target]⟩, r.2)
  | none =>
    let s1 : ServerState := ⟨s.msg_id, insertA s.directory name [(1, ⟨address, []⟩)]⟩
    let r := serverSendMsg s1 1 name (.Directory []) fails
    (r.1, ⟨1, [], [.readIntroduction, .insertSink 1, .sendDirectory 1]⟩, r.2)

/-- The `Server::accept_new_connections` loop (server.rs lines 46-96) over the
finite stream of first messages of inbound connections: an `Introduction`
registers the client, any other kind makes the function return
`UnexpectedMessage` (line 63), ending the loop. -/
def serverAcceptLoop (s : ServerState) (fails : Nat → Bool) :
    List ControlMsg → ServerState × Except LiquidErr Unit
  | [] => (s, .ok ())
  | .Introduction addr name :: rest =>
    match serverRegister s addr name fails with
    | (s', _, .ok _) => serverAcceptLoop s' fails rest
    | (s', _, .error e) => (s', .error e)
  | _ :: _ => (s, .error .UnexpectedMessage)

/-- A sequence of registrations under one network name (the relevant iterations
of the accept loop); a failing registration step ends the sequence like the
enclosing loop would. -/
def registerMany (s : ServerState) (name : String) (fails : Nat → Bool) :
    List String → ServerState × List RegRecord
  | [] => (s, [])
  | a :: rest =>
    match serverRegister s a name fails with
    | (s', rec, .ok _) =>
      let r := registerMany s' name fails rest
      (r.1, rec :: r.2)
    | (s', rec, .error _) => (s', [rec])

/-- The ids registered under `name` in `s`. -/
def subdirKeys (s : ServerState) (name : String) : List Nat :=
  ((lookupA s.directory name).getD []).map Prod.fst

/-- The `(id, address)` view of a sub-directory — exactly what a `Directory`
payload is built from (server.rs line 73). -/
def addrDir (d : List (Nat × SConn)) : List (Nat × String) :=
  d.map (fun kv => (kv.1, kv.2.address))

/-! ## Claim C1 — listener bind vs. Coordinator connect order -/

/-- C1, as stated, is false on the code: in the run of `Client::new` (with no
peers registered yet, the smallest execution), the connect to the Coordinator
happens while the listener is still unbound — `TcpStream::connect` (client.rs
line 53) precedes `TcpListener::bind` (line 70). -/
theorem connect_before_bind_cx :
    ((StartupStep.connectCoordinator, false) ∈ clientNewRun [])
      ∧ ¬ ((StartupStep.connectCoordinator, true) ∈ clientNewRun []) := by
  decide

theorem clientNewRun_eq (peers : List (Nat × String)) :
    clientNewRun peers =
      [(.connectCoordinator, false), (.sendIntroduction, false),
        (.readRegistration, false), (.bindListener, false)]
        ++ peers.map (fun p => (.dialPeer p.1 p.2, true)) := by
  show markBound false (_ :: _ :: _ :: _ :: peers.map _) = _
  simp only [markBound, reduceIte]
  rw [markBound_true, List.map_map]
  rfl

/-- C1 amended: in every execution of `Client::new`, the connection to the
Coordinator (and the whole registration exchange) happens while the listener is
still unbound; the listener is bound only afterwards, but before any peer is
dialed. -/
theorem bind_after_register_before_dials (peers : List (Nat × String))
    (pid : Nat) (pa : String) (flag : Bool) :
    ((StartupStep.dialPeer pid pa, flag) ∈ clientNewRun peers → flag = true)
      ∧ (StartupStep.connectCoordinator, false) ∈ clientNewRun peers := by
  rw [clientNewRun_eq]
  constructor
  · intro hmem
    simp only [List.cons_append, List.nil_append, List.mem_cons, List.mem_map,
      Prod.mk.injEq] at hmem
    rcases hmem with ⟨h, _⟩ | ⟨h, _⟩ | ⟨h, _⟩ | ⟨h, _⟩ | ⟨s, _, _, h⟩
    · exact absurd h (by simp)
    · exact absurd h (by simp)
    · exact absurd h (by simp)
    · exact absurd h (by simp)
    · exact h.symm
  · simp

/-- Witness for `bind_after_register_before_dials` at a concrete peer list. -/
theorem bind_after_register_before_dials_witness :
    (true = true)
      ∧ (StartupStep.connectCoordinator, false) ∈ clientNewRun [(2, "x")] :=
  ⟨(bind_after_register_before_dials [(2, "x")] 2 "x" true).1 (by decide),
   (bind_after_register_before_dials [(2, "x")] 2 "x" true).2⟩

/-! ## Claim C2 — stability of the assigned NodeId -/

/-- C2: the spec is right and the code is wrong.  Evaluating the accept path at
a concrete input: a client that was assigned id 1 accepts an inbound peer hello
carrying `msg_id = 5`; the accept succeeds, yet afterwards the client's `id`
field is 6 — `increment_msg_id` (client.rs line 196) assigns
`max(self.id, id) + 1` to `self.id` instead of `self.msg_id`, contradicting its
own name and the field documentation. -/
theorem accept_mutates_assigned_id :
    ((clientAcceptOne ⟨1, "a", 0, []⟩ ⟨2, 5, "b"⟩ 7).1.id = 6)
      ∧ ((clientAcceptOne ⟨1, "a", 0, []⟩ ⟨2, 5, "b"⟩ 7).2 = .ok ())
      ∧ (ClientState.mk 1 "a" 0 []).id = 1 :=
  ⟨rfl, rfl, rfl⟩

/-! ## Claim C5 — duplicate hello handling -/

/-- C5, as stated, is false on the code: on a duplicate hello for id 2, the
accept path does return `ReconnectionError`, but `HashMap::insert` (client.rs
line 102) runs before the duplicate check, so the directory entry is the NEW
connection (address "b2", socket 1) and the original connection (address "b",
socket 0) has been dropped — not the other way round. -/
theorem reconnection_keeps_duplicate_cx :
    ((clientAcceptOne ⟨1, "a", 0, [(2, ⟨"b", 0, []⟩)]⟩ ⟨2, 5, "b2"⟩ 1).2
        = .error .ReconnectionError)
      ∧ (lookupA (clientAcceptOne ⟨1, "a", 0, [(2, ⟨"b", 0, []⟩)]⟩ ⟨2, 5, "b2"⟩ 1).1.directory 2
          = some ⟨"b2", 1, []⟩)
      ∧ ¬ (lookupA (clientAcceptOne ⟨1, "a", 0, [(2, ⟨"b", 0, []⟩)]⟩ ⟨2, 5, "b2"⟩ 1).1.directory 2
          = some ⟨"b", 0, []⟩) := by
  refine ⟨rfl, rfl, fun h => ?_⟩
  rw [show lookupA (clientAcceptOne ⟨1, "a", 0, [(2, ⟨"b", 0, []⟩)]⟩
        ⟨2, 5, "b2"⟩ 1).1.directory 2 = some ⟨"b2", 1, []⟩ from rfl] at h
  simp only [Option.some.injEq, Conn.mk.injEq] at h
  exact absurd h.1 (by decide)

/-- C5 amended: a second hello (accept side) or dial (connect side) for a
NodeId already in the directory returns `ReconnectionError`, but the directory
entry for that id is REPLACED by the new duplicate connection; the original
connection is dropped (closed).  No message counter update and no reader task
happen on this path. -/
theorem reconnection_error_replaces_entry :
    (∀ (c : ClientState) (m : ConnectionMsg) (link : Nat) (c0 : Conn),
      lookupA c.directory m.my_id = some c0 →
        (clientAcceptOne c m link).2 = .error .ReconnectionError
          ∧ lookupA (clientAcceptOne c m link).1.directory m.my_id
              = some ⟨m.my_address, link, []⟩
          ∧ (clientAcceptOne c m link).1.msg_id = c.msg_id
          ∧ (clientAcceptOne c m link).1.id = c.id)
    ∧ (∀ (c : ClientState) (peer : Nat × String) (link : Nat) (c0 : Conn),
      lookupA c.directory peer.1 = some c0 →
        (clientConnect c peer link).2 = .error .ReconnectionError
          ∧ lookupA (clientConnect c peer link).1.directory peer.1
              = some ⟨peer.2, link, []⟩) := by
  constructor
  · intro c m link c0 h
    have e : clientAcceptOne c m link =
        ({ c with directory := insertA c.directory m.my_id ⟨m.my_address, link, []⟩ },
          .error .ReconnectionError) := by
      simp only [clientAcceptOne, h]
    rw [e]
    exact ⟨rfl, lookupA_insertA_self _ _ _, rfl, rfl⟩
  · intro c peer link c0 h
    have e : clientConnect c peer link =
        ({ c with directory := insertA c.directory peer.1 ⟨peer.2, link, []⟩ },
          .error .ReconnectionError) := by
      simp only [clientConnect, h]
    rw [e]
    exact ⟨rfl, lookupA_insertA_self _ _ _⟩

/-- Witness for `reconnection_error_replaces_entry` at concrete duplicate
hellos on both paths. -/
theorem reconnection_error_replaces_entry_witness :
    ((clientAcceptOne ⟨1, "a", 7, [(2, ⟨"b", 0, []⟩)]⟩ ⟨2, 5, "b2"⟩ 1).2
        = .error .ReconnectionError
      ∧ lookupA (clientAcceptOne ⟨1, "a", 7, [(2, ⟨"b", 0, []⟩)]⟩ ⟨2, 5, "b2"⟩ 1).1.directory 2
          = some ⟨"b2", 1, []⟩
      ∧ (clientAcceptOne ⟨1, "a", 7, [(2, ⟨"b", 0, []⟩)]⟩ ⟨2, 5, "b2"⟩ 1).1.msg_id = 7
      ∧ (clientAcceptOne ⟨1, "a", 7, [(2, ⟨"b", 0, []⟩)]⟩ ⟨2, 5, "b2"⟩ 1).1.id = 1)
    ∧ ((clientConnect ⟨1, "a", 7, [(2, ⟨"b", 0, []⟩)]⟩ (2, "b2") 1).2
        = .error .ReconnectionError
      ∧ lookupA (clientConnect ⟨1, "a", 7, [(2, ⟨"b", 0, []⟩)]⟩ (2, "b2") 1).1.directory 2
          = some ⟨"b2", 1, []⟩) :=
  ⟨reconnection_error_replaces_entry.1 ⟨1, "a", 7, [(2, ⟨"b", 0, []⟩)]⟩ ⟨2, 5, "b2"⟩ 1
      ⟨"b", 0, []⟩ rfl,
   reconnection_error_replaces_entry.2 ⟨1, "a", 7, [(2, ⟨"b", 0, []⟩)]⟩ (2, "b2") 1
      ⟨"b", 0, []⟩ rfl⟩

/-! ## Claim C8 — send_msg and UnknownId -/

/-- C8: `Client::send_msg` fails with `UnknownId` exactly when the target id is
absent from the directory, and in that case the client state — directory, every
link's written frames, and the `msg_id` counter — is returned unchanged. -/
theorem sendMsg_unknownId_iff (c : ClientState) (t : Nat) (f : Frame) (ok : Bool) :
    (((sendMsgC c t f ok).2 = .error .UnknownId) ↔ lookupA c.directory t = none)
      ∧ (lookupA c.directory t = none → sendMsgC c t f ok = (c, .error .UnknownId)) := by
  constructor
  · cases h : lookupA c.directory t with
    | none => simp [sendMsgC, h]
    | some conn =>
      simp only [sendMsgC, h]
      cases ok <;> simp
  · intro h
    simp [sendMsgC, h]

/-- Witness for `sendMsg_unknownId_iff`: a send to the unknown id 5 on an empty
directory returns `UnknownId` with the state untouched. -/
theorem sendMsg_unknownId_iff_witness :
    sendMsgC ⟨1, "a", 4, []⟩ 5 (.text "m") true = (⟨1, "a", 4, []⟩, .error .UnknownId) :=
  (sendMsg_unknownId_iff ⟨1, "a", 4, []⟩ 5 (.text "m") true).2 rfl

/-! ## Claim C4 — unexpected first message on an inbound connection -/

/-- C4, as stated, is false on the code: a `Kill` as the first message of an
inbound connection makes `Server::accept_new_connections` return
`UnexpectedMessage` (directory unchanged, as claimed), but the accept loop
TERMINATES — a well-formed `Introduction` arriving right after is never
processed, so the process does not continue accepting connections. -/
theorem unexpected_message_cx :
    (serverAcceptLoop emptyServer (fun _ => false) [.Kill, .Introduction "a" "n"]
        = (emptyServer, .error .UnexpectedMessage))
      ∧ lookupA (serverAcceptLoop emptyServer (fun _ => false)
          [.Kill, .Introduction "a" "n"]).1.directory "n" = none :=
  ⟨rfl, rfl⟩

/-- C4 amended: an unexpected or malformed first message on an inbound
connection makes the accept loop return an error — `UnexpectedMessage` on the
Coordinator, the read error on a node — with the directory (indeed the whole
state) unchanged; but the loop terminates with it, so no further connections
are accepted by that call. -/
theorem unexpected_message_ends_accept_loop :
    (∀ (s : ServerState) (fails : Nat → Bool) (m : ControlMsg)
        (rest : List ControlMsg),
      (∀ a n, m ≠ .Introduction a n) →
        serverAcceptLoop s fails (m :: rest) = (s, .error .UnexpectedMessage))
    ∧ (∀ (c : ClientState) (link : Nat) (rest : List (Option ConnectionMsg × Nat)),
        clientAcceptLoop c ((none, link) :: rest) = (c, .error .IoFailure)) := by
  constructor
  · intro s fails m rest h
    cases m with
    | Introduction a n => exact absurd rfl (h a n)
    | Directory d => rfl
    | Kill => rfl
  · intro c link rest
    rfl

/-- Witness for `unexpected_message_ends_accept_loop` on concrete streams. -/
theorem unexpected_message_ends_accept_loop_witness :
    (serverAcceptLoop ⟨0, [("n", [(1, ⟨"a", []⟩)])]⟩ (fun _ => false)
        [.Directory [], .Introduction "b" "n"]
      = (⟨0, [("n", [(1, ⟨"a", []⟩)])]⟩, .error .UnexpectedMessage))
    ∧ clientAcceptLoop ⟨1, "a", 0, []⟩ [(none, 3), (some ⟨2, 0, "b"⟩, 4)]
      = (⟨1, "a", 0, []⟩, .error .IoFailure) :=
  ⟨unexpected_message_ends_accept_loop.1 ⟨0, [("n", [(1, ⟨"a", []⟩)])]⟩
      (fun _ => false) (.Directory []) [.Introduction "b" "n"] (by simp),
   unexpected_message_ends_accept_loop.2 ⟨1, "a", 0, []⟩ 3 [(some ⟨2, 0, "b"⟩, 4)]⟩

/-! ## Claim C3 — broadcast and sink failures -/

/-- A coordinator state with three clients registered under network "n". -/
def bcastS0 : ServerState :=
  ⟨0, [("n", [(1, ⟨"a1", []⟩), (2, ⟨"a2", []⟩), (3, ⟨"a3", []⟩)])]⟩

/-- C3, as stated, is false on the code: broadcasting over `bcastS0` with the
sink of id 1 failing, the loop returns the failure immediately — only id 1 was
attempted, and registered id 2 never got a send attempt (the `?` on server.rs
line 138 aborts the loop). -/
theorem broadcast_aborts_on_failure_cx :
    ((serverBroadcast bcastS0 .Kill "n" (fun k => k == 1)).2.1 = [1])
      ∧ ((serverBroadcast bcastS0 .Kill "n" (fun k => k == 1)).2.2
          = .error .IoFailure)
      ∧ (2 ∈ subdirKeys bcastS0 "n")
      ∧ (2 ∉ (serverBroadcast bcastS0 .Kill "n" (fun k => k == 1)).2.1) :=
  ⟨rfl, rfl, by decide, by decide⟩

theorem broadcastGo_stops (name : String) (m : ControlMsg) (fails : Nat → Bool) :
    ∀ (pre : List Nat) (s : ServerState) (i : Nat) (post K : List Nat),
      subdirKeys s name = K →
      (∀ j ∈ pre, j ∈ K ∧ fails j = false) →
      i ∈ K → fails i = true →
      (serverBroadcastGo s name m fails (pre ++ i :: post)).2
        = (pre ++ [i], .error .IoFailure) := by
  intro pre
  induction pre with
  | nil =>
    intro s i post K hK hpre hi hfi
    cases hd : lookupA s.directory name with
    | none =>
      rw [subdirKeys, hd] at hK
      simp at hK
      rw [hK] at hi
      simp at hi
    | some d =>
      have hKd : K = d.map Prod.fst := by
        rw [subdirKeys, hd] at hK
        simpa using hK.symm
      obtain ⟨c, hc⟩ := lookupA_isSome_of_mem d i (hKd ▸ hi)
      simp [serverBroadcastGo, serverSendMsg, hd, sinkSend, hc, hfi]
  | cons j pre ih =>
    intro s i post K hK hpre hi hfi
    obtain ⟨hjK, hjf⟩ := hpre j (by simp)
    cases hd : lookupA s.directory name with
    | none =>
      rw [subdirKeys, hd] at hK
      simp at hK
      rw [hK] at hjK
      simp at hjK
    | some d =>
      have hKd : K = d.map Prod.fst := by
        rw [subdirKeys, hd] at hK
        simpa using hK.symm
      obtain ⟨c, hc⟩ := lookupA_isSome_of_mem d j (hKd ▸ hjK)
      have hstep :
          serverSendMsg s j name m fails
            = (⟨s.msg_id + 1,
                insertA s.directory name
                  (insertA d j ⟨c.address, c.sent ++ [⟨s.msg_id, 0, j, m⟩]⟩)⟩,
               .ok ()) := by
        simp [serverSendMsg, hd, sinkSend, hc, hjf]
      have hnext :
          subdirKeys
            (⟨s.msg_id + 1,
              insertA s.directory name
                (insertA d j ⟨c.address, c.sent ++ [⟨s.msg_id, 0, j, m⟩]⟩)⟩ : ServerState)
            name = K := by
        rw [subdirKeys]
        show ((lookupA (insertA s.directory name _) name).getD []).map Prod.fst = K
        rw [lookupA_insertA_self]
        simp only [Option.getD_some]
        rw [insertA_map_fst_of_mem d j _ (hKd ▸ hjK), hKd]
      have hrec := ih
        (⟨s.msg_id + 1,
          insertA s.directory name
            (insertA d j ⟨c.address, c.sent ++ [⟨s.msg_id, 0, j, m⟩]⟩)⟩ : ServerState)
        i post K hnext (fun x hx => hpre x (by simp [hx])) hi hfi
      simp only [List.cons_append, serverBroadcastGo, hstep, Prod.mk.injEq]
      refine ⟨?_, ?_⟩
      · exact congrArg (fun l => j :: l) (congrArg Prod.fst hrec)
      · exact congrArg Prod.snd hrec

/-- C3 amended: a failure on one sink ABORTS the broadcast: the loop attempts
the registered ids in the snapshot order up to and including the first failing
sink, returns that failure immediately, and the ids after it are never
attempted. -/
theorem broadcast_stops_at_first_failure (s : ServerState) (name : String)
    (m : ControlMsg) (fails : Nat → Bool) (d : List (Nat × SConn))
    (pre post : List Nat) (i : Nat)
    (hd : lookupA s.directory name = some d)
    (hsplit : d.map Prod.fst = pre ++ i :: post)
    (hpre : ∀ j ∈ pre, fails j = false)
    (hfi : fails i = true) :
    (serverBroadcast s m name fails).2 = (pre ++ [i], .error .IoFailure) := by
  have hK : subdirKeys s name = d.map Prod.fst := by
    rw [subdirKeys, hd]
    simp
  simp only [serverBroadcast, hd, hsplit]
  exact broadcastGo_stops name m fails pre s i post (d.map Prod.fst) hK
    (fun j hj => ⟨by rw [hsplit]; exact List.mem_append_left _ hj, hpre j hj⟩)
    (by rw [hsplit]; exact List.mem_append_right _ (by simp)) hfi

/-- Witness for `broadcast_stops_at_first_failure`: over `bcastS0` with sink 2
failing, the broadcast attempts ids 1 and 2 and never reaches id 3. -/
theorem broadcast_stops_at_first_failure_witness :
    (serverBroadcast bcastS0 .Kill "n" (fun k => k == 2)).2
      = ([1, 2], .error .IoFailure) :=
  broadcast_stops_at_first_failure bcastS0 "n" .Kill (fun k => k == 2)
    [(1, ⟨"a1", []⟩), (2, ⟨"a2", []⟩), (3, ⟨"a3", []⟩)] [1] [3] 2
    rfl rfl (by decide) rfl

/-! ## Claims C6 and C7 — id assignment and Directory payloads -/

theorem addrDir_map_fst (d : List (Nat × SConn)) :
    (addrDir d).map Prod.fst = d.map Prod.fst := by
  simp [addrDir, List.map_map]

theorem addrDir_insertA (l : List (Nat × SConn)) (k : Nat) (a : String)
    (w : List Message) :
    addrDir (insertA l k ⟨a, w⟩) = insertA (addrDir l) k a := by
  induction l with
  | nil => rfl
  | cons hd tl ih =>
    by_cases h : hd.1 = k
    · simp [insertA, addrDir, h]
    · simp only [insertA, addrDir, h, if_false, List.map_cons]
      simpa [addrDir] using ih

theorem insertA_insertA_same {κ α : Type} [DecidableEq κ]
    (l : List (κ × α)) (k : κ) (v v' : α) :
    insertA (insertA l k v) k v' = insertA l k v' := by
  induction l with
  | nil => simp [insertA]
  | cons hd tl ih =>
    by_cases h : hd.1 = k
    · simp [insertA, h]
    · simp [insertA, h, ih]

/-- The `(id, address)` view of the sub-directory registered under `name`. -/
def subAddrDir (s : ServerState) (name : String) : List (Nat × String) :=
  addrDir ((lookupA s.directory name).getD [])

/-- The combined invariant of a run of same-name registrations with no send
failures: starting from a sub-directory whose `(id, address)` view is
`(range' 1 pref.length).zip pref` (or from no sub-directory at all), the run
assigns the next `addrs.length` contiguous ids, extends the sub-directory
accordingly, and each registration record carries the payload of exactly the
previously registered peers, the freshly assigned id, and the
insert-before-send trace. -/
theorem registerMany_spec (name : String) :
    ∀ (addrs : List String) (s : ServerState) (pref : List String),
      ((lookupA s.directory name = none ∧ pref = [])
        ∨ (∃ d, lookupA s.directory name = some d
            ∧ addrDir d = (List.range' 1 pref.length).zip pref)) →
      ((registerMany s name (fun _ => false) addrs).2.map (fun r => r.assigned)
          = List.range' (pref.length + 1) addrs.length)
      ∧ (subAddrDir (registerMany s name (fun _ => false) addrs).1 name
          = (List.range' 1 (pref.length + addrs.length)).zip (pref ++ addrs))
      ∧ (∀ k, k < addrs.length →
          (registerMany s name (fun _ => false) addrs).2.getD k default
            = ⟨pref.length + k + 1,
               (List.range' 1 (pref.length + k)).zip (pref ++ addrs.take k),
               [.readIntroduction, .insertSink (pref.length + k + 1),
                .sendDirectory (pref.length + k + 1)]⟩) := by
  intro addrs
  induction addrs with
  | nil =>
    intro s pref hinv
    refine ⟨rfl, ?_, by intro k hk; simp at hk⟩
    rcases hinv with ⟨hnone, hpref⟩ | ⟨d, hd, haddr⟩
    · subst hpref
      simp [registerMany, subAddrDir, hnone, addrDir]
    · simp [registerMany, subAddrDir, hd, haddr]
  | cons a rest ih =>
    intro s pref hinv
    rcases hinv with ⟨hnone, hpref⟩ | ⟨d, hd, haddr⟩
    · -- first-ever registration under this name: the None branch of the match
      subst hpref
      have hreg : serverRegister s a name (fun _ => false)
          = (⟨s.msg_id + 1,
              insertA (insertA s.directory name [(1, ⟨a, []⟩)]) name
                [(1, ⟨a, [⟨s.msg_id, 0, 1, .Directory []⟩]⟩)]⟩,
             ⟨1, [], [.readIntroduction, .insertSink 1, .sendDirectory 1]⟩,
             .ok ()) := by
        simp [serverRegister, hnone, serverSendMsg, lookupA_insertA_self,
          sinkSend, lookupA, insertA]
      have hnext : ∃ d2,
          lookupA (⟨s.msg_id + 1,
              insertA (insertA s.directory name [(1, ⟨a, []⟩)]) name
                [(1, ⟨a, [⟨s.msg_id, 0, 1, .Directory []⟩]⟩)]⟩ : ServerState).directory
              name = some d2
            ∧ addrDir d2 = (List.range' 1 ([a].length)).zip [a] := by
        refine ⟨[(1, ⟨a, [⟨s.msg_id, 0, 1, .Directory []⟩]⟩)],
          lookupA_insertA_self _ _ _, ?_⟩
        simp [addrDir, List.range']
      obtain ⟨h1, h2, h3⟩ := ih _ [a] (Or.inr hnext)
      refine ⟨?_, ?_, ?_⟩
      · simp only [registerMany, hreg, List.map_cons, List.length_cons,
          List.length_singleton, h1]
        rw [List.range'_succ]
        simp
      · simp only [registerMany, hreg]
        rw [h2]
        simp [Nat.add_comm 1 rest.length]
      · intro k hk
        cases k with
        | zero => simp [registerMany, hreg]
        | succ k2 =>
          simp only [registerMany, hreg, List.getD_cons_succ]
          rw [h3 k2 (by simpa using hk)]
          simp [Nat.add_comm 1 k2]
    · -- at least one peer is registered: the Some branch of the match
      have hlen : d.length = pref.length := by
        have := congrArg List.length haddr
        simpa [addrDir] using this
      have hfst : d.map Prod.fst = List.range' 1 pref.length := by
        rw [← addrDir_map_fst, haddr]
        exact List.map_fst_zip _ _ (by simp only [List.length_range']; omega)
      have hnotmem : (pref.length + 1) ∉ d.map Prod.fst := by
        rw [hfst]
        simp only [List.mem_range'_1, not_and, Nat.not_lt]
        omega
      have hd2 : insertA d (pref.length + 1) (⟨a, []⟩ : SConn)
          = d ++ [(pref.length + 1, ⟨a, []⟩)] :=
        insertA_append_of_not_mem _ _ _ hnotmem
      have hsink : lookupA (d ++ [(pref.length + 1, (⟨a, []⟩ : SConn))]) (pref.length + 1)
          = some ⟨a, []⟩ := by
        rw [← hd2]
        exact lookupA_insertA_self _ _ _
      have hreg : serverRegister s a name (fun _ => false)
          = (⟨s.msg_id + 1,
              insertA (insertA s.directory name (d ++ [(pref.length + 1, ⟨a, []⟩)])) name
                (insertA (d ++ [(pref.length + 1, ⟨a, []⟩)]) (pref.length + 1)
                  ⟨a, [⟨s.msg_id, 0, pref.length + 1, .Directory (addrDir d)⟩]⟩)⟩,
             ⟨pref.length + 1, addrDir d,
              [.readIntroduction, .insertSink (pref.length + 1),
               .sendDirectory (pref.length + 1)]⟩,
             .ok ()) := by
        simp only [serverRegister, hd, hlen, hd2, serverSendMsg,
          lookupA_insertA_self, sinkSend, hsink, addrDir]
        simp
      have haddr3 :
          addrDir (insertA (d ++ [(pref.length + 1, ⟨a, []⟩)]) (pref.length + 1)
              ⟨a, [⟨s.msg_id, 0, pref.length + 1, .Directory (addrDir d)⟩]⟩)
            = (List.range' 1 (pref ++ [a]).length).zip (pref ++ [a]) := by
        rw [← hd2, insertA_insertA_same, addrDir_insertA, haddr]
        rw [insertA_append_of_not_mem]
        · have hr : List.range' 1 (pref ++ [a]).length
              = List.range' 1 pref.length ++ [1 + pref.length] := by
            simp [List.range'_1_concat]
          rw [hr, List.zip_append (by simp)]
          simp [Nat.add_comm 1 pref.length]
        · rw [List.map_fst_zip _ _ (by simp only [List.length_range']; omega)]
          simp only [List.mem_range'_1, not_and, Nat.not_lt]
          omega
      obtain ⟨h1, h2, h3⟩ := ih
        (⟨s.msg_id + 1,
          insertA (insertA s.directory name (d ++ [(pref.length + 1, ⟨a, []⟩)])) name
            (insertA (d ++ [(pref.length + 1, ⟨a, []⟩)]) (pref.length + 1)
              ⟨a, [⟨s.msg_id, 0, pref.length + 1, .Directory (addrDir d)⟩]⟩)⟩ : ServerState)
        (pref ++ [a])
        (Or.inr ⟨_, lookupA_insertA_self _ _ _, haddr3⟩)
      refine ⟨?_, ?_, ?_⟩
      · simp only [registerMany, hreg, List.map_cons, h1, List.length_cons,
          List.length_append, List.length_singleton]
        rw [List.range'_succ]
        simp
      · simp only [registerMany, hreg]
        rw [h2]
        have hn : (pref ++ [a]).length + rest.length = pref.length + (rest.length + 1) := by
          simp
          omega
        rw [hn, List.append_assoc]
        simp
      · intro k hk
        cases k with
        | zero =>
          simp only [registerMany, hreg, List.getD_cons_zero]
          rw [haddr]
          simp
        | succ k2 =>
          simp only [registerMany, hreg, List.getD_cons_succ]
          rw [h3 k2 (by simpa using hk)]
          have e1 : (pref ++ [a]).length + k2 + 1 = pref.length + (k2 + 1) + 1 := by
            simp
            omega
          have e2 : (pref ++ [a]).length + k2 = pref.length + (k2 + 1) := by
            simp
            omega
          have e3 : (pref ++ [a]) ++ rest.take k2 = pref ++ (a :: rest).take (k2 + 1) := by
            simp [List.append_assoc]
          rw [e1, e2, e3]

/-- C6: a sequence of N registrations under a single network name assigns
`target_id = len(sub_directory) + 1` to each newcomer, so the assigned ids are
exactly the contiguous range [1, N] — in order, with no id reused — and the
sub-directory ends up keyed by exactly that range. -/
theorem registration_ids_contiguous (name : String) (addrs : List String) :
    ((registerMany emptyServer name (fun _ => false) addrs).2.map (fun r => r.assigned)
        = List.range' 1 addrs.length)
      ∧ subdirKeys (registerMany emptyServer name (fun _ => false) addrs).1 name
        = List.range' 1 addrs.length := by
  obtain ⟨h1, h2, _⟩ := registerMany_spec name addrs emptyServer [] (Or.inl ⟨rfl, rfl⟩)
  refine ⟨by simpa using h1, ?_⟩
  have hk : subdirKeys (registerMany emptyServer name (fun _ => false) addrs).1 name
      = (subAddrDir (registerMany emptyServer name (fun _ => false) addrs).1 name).map
          Prod.fst := by
    rw [subAddrDir, addrDir_map_fst]
    rfl
  rw [hk, h2]
  simp only [List.length_nil, Nat.zero_add, List.nil_append]
  exact List.map_fst_zip _ _ (by simp)

/-- C7: the `Directory` payload sent to the k-th registrant (k counted from 0
here) under a network name is exactly the k earlier registrants — ids 1..k
paired with their announced addresses — and never contains the newcomer's own
id; and in the registration's event trace the newcomer's sink is inserted into
the sub-directory before the `Directory` message is sent. -/
theorem directory_payload_excludes_newcomer (name : String) (addrs : List String)
    (k : Nat) (hk : k < addrs.length) :
    ((registerMany emptyServer name (fun _ => false) addrs).2.getD k default).payload
        = (List.range' 1 k).zip (addrs.take k)
      ∧ ((registerMany emptyServer name (fun _ => false) addrs).2.getD k default).assigned
        = k + 1
      ∧ ((registerMany emptyServer name (fun _ => false) addrs).2.getD k default).assigned
          ∉ ((registerMany emptyServer name (fun _ => false) addrs).2.getD k
              default).payload.map Prod.fst
      ∧ ((registerMany emptyServer name (fun _ => false) addrs).2.getD k default).trace
        = [.readIntroduction, .insertSink (k + 1), .sendDirectory (k + 1)] := by
  obtain ⟨_, _, h3⟩ := registerMany_spec name addrs emptyServer [] (Or.inl ⟨rfl, rfl⟩)
  rw [h3 k hk]
  refine ⟨by simp, by simp, ?_, by simp⟩
  simp only [List.length_nil, Nat.zero_add, List.nil_append]
  rw [List.map_fst_zip _ _ (by simp [List.length_take]; omega)]
  simp only [List.mem_range'_1, not_and, Nat.not_lt]
  omega

/-- Witness for `directory_payload_excludes_newcomer`: the second of three
registrations under "n" receives exactly the first peer in its payload. -/
theorem directory_payload_excludes_newcomer_witness :
    ((registerMany emptyServer "n" (fun _ => false) ["a", "b", "c"]).2.getD 1 default).payload
        = (List.range' 1 1).zip (["a", "b", "c"].take 1)
      ∧ ((registerMany emptyServer "n" (fun _ => false) ["a", "b", "c"]).2.getD 1 default).assigned
        = 1 + 1
      ∧ ((registerMany emptyServer "n" (fun _ => false) ["a", "b", "c"]).2.getD 1 default).assigned
          ∉ ((registerMany emptyServer "n" (fun _ => false) ["a", "b", "c"]).2.getD 1
              default).payload.map Prod.fst
      ∧ ((registerMany emptyServer "n" (fun _ => false) ["a", "b", "c"]).2.getD 1 default).trace
        = [.readIntroduction, .insertSink (1 + 1), .sendDirectory (1 + 1)] :=
  directory_payload_excludes_newcomer "n" ["a", "b", "c"] 1 (by decide)

/-! ## Claim C9 — the three-node sum-check demo
(`examples/manual_demo_client.rs` with the column access of `src/dataframe.rs`) -/

/-- The `Data` variants the demo exercises (`sorer::dataframe::Data`; the
data-frame crate is an external collaborator per §1, only the integer path is
reached by the demo). -/
inductive Data where
  | Int (x : Int)
  | Null
deriving DecidableEq, Repr

/-- `DataFrame::get` on an integer column (dataframe.rs lines 51-71, the
`Column::Int` arm, at `col_idx` pointing to this column): `col.get(row_idx)`
then `.unwrap()` — a panic on a row index out of bounds is `none` — and a
present-but-unset cell yields `Data::Null`. -/
def dfGet (col : List (Option Int)) (i : Nat) : Option Data :=
  match col.get? i with
  | none => none
  | some (some x) => some (.Int x)
  | some none => some .Null

def demoN : Nat := 100000

/-- Node 1's column: `(0..100_000).map(|x| Some(x))`
(manual_demo_client.rs line 22). -/
def demoVals : List (Option Int) :=
  (List.range' 0 demoN).map (fun (x : Nat) => some (x : Int))

/-- One step of node 1's fold `|x, y| x + y.unwrap()`
(manual_demo_client.rs line 23); an `unwrap` of `None` (a panic) poisons the
accumulator. -/
def rustFoldStep : Option Int → Option Int → Option Int
  | some acc, some v => some (acc + v)
  | _, _ => none

/-- Node 1's scalar: `vals.iter().fold(0, |x, y| x + y.unwrap())`, stored under
key `("ck", 1)`. -/
def node1Sum (vals : List (Option Int)) : Option Int := vals.foldl rustFoldStep (some 0)

/-- One step of node 2's loop (manual_demo_client.rs lines 31-37):
`if let Data::Int(x) = df.get(0, i)? { sum += x } else { unreachable!() }`;
a `get` error or the unreachable arm poisons the accumulator. -/
def node2Step (col : List (Option Int)) : Option Int → Nat → Option Int :=
  fun acc i =>
    match acc, dfGet col i with
    | some s, some (.Int x) => some (s + x)
    | _, _ => none

/-- Node 2's recomputed sum over `i in 0..100_000`, stored under `("verif", 1)`. -/
def node2Sum (col : List (Option Int)) (n : Nat) : Option Int :=
  (List.range n).foldl (node2Step col) (some 0)

/-- A single-cell frame, `LocalDataFrame::from(Data::Int(sum))`. -/
def scalarDf (s : Int) : List (Option Int) := [some s]

/-- Modelled from the spec: transport through the key-value store (src/kv.rs is
not in the tree) — by §8, after `put(K, v)` returns, `wait_and_get(K)` on any
node returns exactly `v`. -/
def kvTransport (df : List (Option Int)) : List (Option Int) := df

/-- Node 3's comparison (manual_demo_client.rs lines 41-52): `wait_and_get` the
two scalar frames, `get(0, 0)` of each, and compare the two integers; a missing
frame or a non-integer cell falls into the `unreachable` arms. -/
def demoCompare (verif ck : Option Int) : Option Bool :=
  match verif, ck with
  | some v, some c =>
    match dfGet (kvTransport (scalarDf v)) 0, dfGet (kvTransport (scalarDf c)) 0 with
    | some (.Int x), some (.Int y) => some (x == y)
    | _, _ => none
  | _, _ => none

/-- Node 3 (manual_demo_client.rs lines 40-52): compare what node 2 stored
under `("verif", 1)` with what node 1 stored under `("ck", 1)`. -/
def demoNode3 : Option Bool :=
  demoCompare (node2Sum (kvTransport demoVals) demoN) (node1Sum demoVals)

theorem foldl_rustFoldStep (l : List Nat) : ∀ (a : Int),
    ((l.map (fun (x : Nat) => some (x : Int))).foldl rustFoldStep (some a))
      = some (l.foldl (fun (s : Int) (x : Nat) => s + (x : Int)) a) := by
  induction l with
  | nil => intro a; rfl
  | cons hd tl ih =>
    intro a
    simp only [List.map_cons, List.foldl_cons, rustFoldStep]
    exact ih _

theorem foldl_intAdd_shift (l : List Nat) : ∀ (a : Int),
    l.foldl (fun (s : Int) (x : Nat) => s + (x : Int)) a
      = a + l.foldl (fun (s : Int) (x : Nat) => s + (x : Int)) 0 := by
  induction l with
  | nil => intro a; simp
  | cons hd tl ih =>
    intro a
    simp only [List.foldl_cons]
    rw [ih (a + (hd : Int)), ih (0 + (hd : Int))]
    ring

theorem twice_foldl_range (n : Nat) :
    2 * ((List.range n).foldl (fun (s : Int) (x : Nat) => s + (x : Int)) 0)
      = (n : Int) * ((n : Int) - 1) := by
  induction n with
  | zero => simp
  | succ m ih =>
    rw [List.range_succ, List.foldl_append]
    simp only [List.foldl_cons, List.foldl_nil]
    rw [foldl_intAdd_shift]
    push_cast at ih ⊢
    linear_combination ih

theorem foldl_range_demoN :
    (List.range demoN).foldl (fun (s : Int) (x : Nat) => s + (x : Int)) 0 = 4999950000 := by
  have h := twice_foldl_range demoN
  rw [show (demoN : Int) * ((demoN : Int) - 1) = 9999900000 from by
    norm_num [demoN]] at h
  omega

theorem node1Sum_demo : node1Sum demoVals = some 4999950000 := by
  rw [node1Sum, demoVals, foldl_rustFoldStep, ← List.range_eq_range', foldl_range_demoN]

theorem dfGet_demoVals (i : Nat) (hi : i < demoN) :
    dfGet demoVals i = some (.Int ((i : Int))) := by
  rw [dfGet, demoVals]
  simp [List.get?_eq_getElem?, List.getElem?_map, List.getElem?_range' 0 1 hi]

theorem node2Sum_eq (n : Nat) (hn : n ≤ demoN) :
    node2Sum demoVals n
      = some ((List.range n).foldl (fun (s : Int) (x : Nat) => s + (x : Int)) 0) := by
  induction n with
  | zero => rfl
  | succ m ih =>
    have hm : m ≤ demoN := Nat.le_of_succ_le hn
    have hlt : m < demoN := Nat.lt_of_lt_of_le (Nat.lt_succ_self m) hn
    rw [node2Sum, List.range_succ, List.foldl_append, ← node2Sum, ih hm]
    simp only [List.foldl_cons, List.foldl_nil]
    rw [List.foldl_append]
    simp only [List.foldl_cons, List.foldl_nil]
    simp [node2Step, dfGet_demoVals m hlt]

theorem node2Sum_demo : node2Sum demoVals demoN = some 4999950000 := by
  rw [node2Sum_eq demoN (Nat.le_refl _), foldl_range_demoN]

/-- C9: in the three-node sum-check demo, node 1's scalar under `("ck", 1)` —
the fold of the integers 0..100000 — equals 4999950000; node 2's
element-by-element recomputation over the fetched column equals the same value;
and node 3's equality comparison of the `("ck", 1)` and `("verif", 1)` scalars
succeeds. -/
theorem demo_sum_check :
    node1Sum demoVals = some 4999950000
      ∧ node2Sum demoVals demoN = some 4999950000
      ∧ demoNode3 = some true := by
  refine ⟨node1Sum_demo, node2Sum_demo, ?_⟩
  have h2 : node2Sum (kvTransport demoVals) demoN = some 4999950000 := node2Sum_demo
  rw [demoNode3, h2, node1Sum_demo]
  rfl

/-! ## Claim C10 — the `Display` impl of `DFError` (`src/error.rs`) -/

/-- The `DFError` enum (error.rs lines 8-14). -/
inductive DFError where
  | RowIndexOutOfBounds
  | ColIndexOutOfBounds
  | NameAlreadyExists
  | TypeMismatch
  | NotSet
deriving DecidableEq, Repr

/-- A Rust match pattern over `DFError` as resolved by the compiler: a path
pattern naming a variant, or a bare identifier — which, when the variant names
are not imported into scope, is an irrefutable binding pattern. -/
inductive RustPat where
  | binder
  | variantPat (v : DFError)
deriving DecidableEq, Repr

def patMatches : RustPat → DFError → Bool
  | .binder, _ => true
  | .variantPat v, e => v == e

/-- Rust `match` evaluation: the first arm whose pattern matches wins. -/
def firstArm : List (RustPat × String) → DFError → Option String
  | [], _ => none
  | (p, s) :: rest, e => if patMatches p e then some s else firstArm rest e

/-- The arms of `impl fmt::Display for DFError` (error.rs lines 18-27).  The
file has no `use DFError::*;`, so `RowIndexOutOfBounds` etc. in pattern
position do not resolve to the enum variants: each arm is an identifier
(binding) pattern. -/
def dfErrorDisplayArms : List (RustPat × String) :=
  [ (.binder, "Row index out of bounds"),
    (.binder, "Col index out of bounds"),
    (.binder, "Name already in use"),
    (.binder, "The requested operation doesn\x27t match the schema data type"),
    (.binder, "Must set the index for the row") ]

/-- What `fmt` writes for a given error value. -/
def dfErrorDisplay (e : DFError) : Option String := firstArm dfErrorDisplayArms e

/-- C10: for every variant of `DFError`, the `Display` implementation produces
the string "Row index out of bounds" — the match arms are variable-binding
patterns (the variants are not in scope as paths), so the first arm always
matches. -/
theorem dfErrorDisplay_constant (e : DFError) :
    dfErrorDisplay e = some "Row index out of bounds" := by
  cases e <;> rfl
